import Mathlib

/-!
Verification of the geometry-format translation layer
(source: src/pyqgiswps/executors/io/geometryio.py).

The module under verification converts textual geometry encodings (WKT with an
optional CRS= prefix, GeoJSON, GML) and four-number bounding boxes into
canonical geometry / point / rectangle values, optionally tagged with a
coordinate reference system (CRS).

The shallow embedding below models:
  * strings as lists of characters;
  * the fixed lexical pattern WKT_EXPR together with the exact backtracking
    semantics of the Python regex engine on that one pattern;
  * the out-of-scope geometry/CRS primitive library (QGIS / OGR) as small
    executable models, each marked with a doc comment starting with the words
    Modelled from the spec;
  * Python exceptions as an explicit error type, and each conversion entry
    point as a function into Except.
-/

/-- Decidable equality for Except values, used to evaluate the conversion
entry points on concrete inputs. -/
instance {ε α : Type} [DecidableEq ε] [DecidableEq α] : DecidableEq (Except ε α) := fun x y =>
  match x, y with
  | Except.ok a, Except.ok b =>
    if h : a = b then isTrue (by rw [h])
    else isFalse (fun hc => h (by cases hc; rfl))
  | Except.error a, Except.error b =>
    if h : a = b then isTrue (by rw [h])
    else isFalse (fun hc => h (by cases hc; rfl))
  | Except.ok _, Except.error _ => isFalse (fun hc => Except.noConfusion hc)
  | Except.error _, Except.ok _ => isFalse (fun hc => Except.noConfusion hc)

/-! ## Characters, digits and integer literals

Helper definitions used by the model of the external WKT reader/writer. -/

/-- Python regular-expression whitespace class for ASCII characters
(space, tab, newline, carriage return, vertical tab, form feed). -/
def isPySpace (c : Char) : Bool :=
  c = ' ' || c = '\t' || c = '\n' || c = '\r' || c = '\x0b' || c = '\x0c'

/-- Decimal digit character for a value below ten. -/
def digitChar : Nat → Char
  | 0 => '0'
  | 1 => '1'
  | 2 => '2'
  | 3 => '3'
  | 4 => '4'
  | 5 => '5'
  | 6 => '6'
  | 7 => '7'
  | 8 => '8'
  | 9 => '9'
  | _ => '*'

/-- Numeric value of a decimal digit character. -/
def digitVal (c : Char) : Nat := c.toNat - 48

/-- Test for a decimal digit character. -/
def isDigitCh (c : Char) : Bool := '0' ≤ c && c ≤ '9'

/-- Fuel-driven digit expansion: with enough fuel this is the decimal
representation, most significant digit first. -/
def natToCharsF : Nat → Nat → List Char
  | 0, n => [digitChar n]
  | f + 1, n =>
    if n < 10 then [digitChar n]
    else natToCharsF f (n / 10) ++ [digitChar (n % 10)]

/-- Decimal representation of a natural number, most significant digit
first. -/
def natToChars (n : Nat) : List Char := natToCharsF n n

/-- Decimal representation of an integer, with a leading minus sign when
negative. -/
def intToChars (n : Int) : List Char :=
  if n < 0 then '-' :: natToChars n.natAbs else natToChars n.toNat

/-- Parse a nonempty all-digit character list as a natural number. -/
def parseNatChars (s : List Char) : Option Nat :=
  if s ≠ [] ∧ s.all isDigitCh then
    some (s.foldl (fun a c => 10 * a + digitVal c) 0)
  else none

/-- Parse an optionally minus-signed nonempty digit string as an integer. -/
def parseIntChars (s : List Char) : Option Int :=
  if s.head? = some '-' then (parseNatChars s.tail).map (fun (n : Nat) => -(n : Int))
  else (parseNatChars s).map (fun (n : Nat) => (n : Int))

/-! ## Model of the external geometry primitives

The geometry/CRS primitive library (QGIS and OGR) is an out-of-scope external
collaborator of the module under verification: the source only calls
construct-geometry-from-WKT, export-geometry-to-WKT, construct-CRS-from-string,
CRS-validity-check, geometry-centroid, and the GeoJSON/GML constructors.
Those primitives are modelled here as small executable functions. -/

/-- Modelled from the spec: the canonical in-memory geometry representation
produced by the external geometry engine.  A geometry is either the null
(invalid) geometry, a point, or a polygon ring; coordinates are modelled as
integers. -/
inductive Geometry where
  | null : Geometry
  | point (x y : Int) : Geometry
  | polygon (pts : List (Int × Int)) : Geometry
deriving DecidableEq, Repr

/-- Null/validity check on a geometry value (QgsGeometry.isNull). -/
def isNullG : Geometry → Bool
  | Geometry.null => true
  | _ => false

/-- Coordinate pair rendered as two integer literals separated by one space. -/
def coordChars (p : Int × Int) : List Char :=
  intToChars p.1 ++ ' ' :: intToChars p.2

/-- Join character lists with a single separator character between them. -/
def joinWith (c : Char) : List (List Char) → List Char
  | [] => []
  | [x] => x
  | x :: y :: t => x ++ c :: joinWith c (y :: t)

/-- Leading text of a point WKT. -/
def pointTag : List Char := ['P', 'O', 'I', 'N', 'T', '(']

/-- Leading text of a polygon WKT. -/
def polygonTag : List Char := ['P', 'O', 'L', 'Y', 'G', 'O', 'N', '(', '(']

/-- Modelled from the spec: export-geometry-to-WKT (QgsGeometry.asWkt and
ogr ExportToWkt), producing the canonical WKT text of a geometry. -/
def gexport : Geometry → List Char
  | Geometry.null => []
  | Geometry.point x y => pointTag ++ (coordChars (x, y) ++ [')'])
  | Geometry.polygon pts =>
      polygonTag ++ (joinWith ',' (pts.map coordChars) ++ [')', ')'])

/-- Split a character list at every occurrence of a separator character;
always returns at least one piece. -/
def splitOnCh (c : Char) : List Char → List (List Char)
  | [] => [[]]
  | a :: as =>
    if a = c then [] :: splitOnCh c as
    else
      match splitOnCh c as with
      | [] => [[a]]
      | h :: t => (a :: h) :: t

/-- Parse one coordinate pair of the form x SPACE y. -/
def parseCoordPiece (s : List Char) : Option (Int × Int) :=
  match splitOnCh ' ' s with
  | [a, b] =>
    match parseIntChars a, parseIntChars b with
    | some x, some y => some (x, y)
    | _, _ => none
  | _ => none

/-- Parse every piece of a list of coordinate texts, failing when any piece
fails. -/
def parseCoordList : List (List Char) → Option (List (Int × Int))
  | [] => some []
  | p :: ps =>
    match parseCoordPiece p, parseCoordList ps with
    | some q, some qs => some (q :: qs)
    | _, _ => none

/-- Parse a comma-separated sequence of coordinate pairs. -/
def parseRing (s : List Char) : Option (List (Int × Int)) :=
  parseCoordList (splitOnCh ',' s)

/-- Strip a single closing parenthesis from the end of the list. -/
def stripParen1 (r : List Char) : Option (List Char) :=
  match r.reverse with
  | ')' :: rest => some rest.reverse
  | _ => none

/-- Strip two closing parentheses from the end of the list. -/
def stripParen2 (r : List Char) : Option (List Char) :=
  match r.reverse with
  | ')' :: ')' :: rest => some rest.reverse
  | _ => none

/-- Modelled from the spec: construct-geometry-from-WKT
(QgsGeometry.fromWkt).  The model parses the canonical grammar
POINT(x y) and POLYGON((x1 y1,...,xn yn)) with integer coordinates and
yields the null geometry on any other input, matching the spec's contract
that construction of an unparseable WKT body yields a null/invalid
geometry. -/
def fromWkt (s : List Char) : Geometry :=
  if pointTag.isPrefixOf s then
    match stripParen1 (s.drop 6) with
    | some inner =>
      match parseCoordPiece inner with
      | some p => Geometry.point p.1 p.2
      | none => Geometry.null
    | none => Geometry.null
  else if polygonTag.isPrefixOf s then
    match stripParen2 (s.drop 9) with
    | some inner =>
      match parseRing inner with
      | some pts => Geometry.polygon pts
      | none => Geometry.null
    | none => Geometry.null
  else Geometry.null

/-- Modelled from the spec: geometry-centroid (centroid().asPoint()), an
out-of-scope primitive; the model returns the point itself for a point and
the integer vertex average for a polygon. -/
def centroidPoint : Geometry → Int × Int
  | Geometry.null => (0, 0)
  | Geometry.point x y => (x, y)
  | Geometry.polygon pts =>
      ((pts.map Prod.fst).sum / (pts.length : Int),
       (pts.map Prod.snd).sum / (pts.length : Int))

/-- Modelled from the spec: a coordinate reference system value
(QgsCoordinateReferenceSystem) holding its defining string and the result
of the external validity check. -/
structure CRS where
  definition : List Char
  valid : Bool
deriving DecidableEq, Repr

/-- Modelled from the spec: the external CRS-validity check; the model
recognises authority identifiers of the form EPSG:digits, so that the
spec's examples are reproduced (EPSG:4326 valid; NOT_A_CRS, the empty
string and strings holding a semicolon invalid). -/
def crsIsValidStr (s : List Char) : Bool :=
  match s with
  | 'E' :: 'P' :: 'S' :: 'G' :: ':' :: ds => ds ≠ [] && ds.all isDigitCh
  | _ => false

/-- Modelled from the spec: construct-CRS-from-string
(QgsCoordinateReferenceSystem applied to a definition string). -/
def crsFromString (s : List Char) : CRS := CRS.mk s (crsIsValidStr s)

/-- Modelled from the spec: construct-CRS-from-WKT
(QgsCoordinateReferenceSystem.fromWkt applied to an exported spatial
reference); the model reuses the same validity check. -/
def crsFromWkt (s : List Char) : CRS := crsFromString s

/-! ## The WKT_EXPR pattern

The source compiles the fixed pattern
WKT_EXPR matching an optional CRS= prefix: caret, whitespace-star, an
optional group of the literal CRS= followed by a greedy dot-star capture and
a semicolon, then a lazy dot-star capture, then dollar.
The functions below reproduce the Python regex engine's behaviour on this
one pattern: dot does not match a newline, dollar matches at the end of the
string or just before a trailing newline, the whitespace-star and the CRS
capture are greedy, the body capture is lazy, and groups are read with an
empty-string default. -/

/-- Lazy body capture followed by dollar: the shortest body starting at the
current position that reaches an end-of-string position, where dot excludes
newlines and dollar also matches just before a single trailing newline. -/
def matchBody (u : List Char) : Option (List Char) :=
  if u.getLast? = some '\n' then
    if '\n' ∈ u.dropLast then none else some u.dropLast
  else if '\n' ∈ u then none else some u

/-- Greedy CRS capture: split the list at the last semicolon lying before the
first newline, the capture being everything before that semicolon.  Returns
none when no such semicolon exists. -/
def lastSemiSplit : List Char → Option (List Char × List Char)
  | [] => none
  | c :: cs =>
    if c = '\n' then none
    else
      match lastSemiSplit cs with
      | some (pre, post) => some (c :: pre, post)
      | none => if c = ';' then some ([], cs) else none

/-- Optional-prefix arm of the pattern at a position where the literal CRS=
has just been read: try the greedy CRS capture followed by the lazy body; on
failure fall back, as the backtracking engine does, to the prefix-less
reading of the whole remaining text r. -/
def crsArm (t r : List Char) : Option (List Char × List Char) :=
  match lastSemiSplit t with
  | some (spec, rest2) =>
    match matchBody rest2 with
    | some body => some (spec, body)
    | none => (matchBody r).map (fun b => ([], b))
  | none => (matchBody r).map (fun b => ([], b))

/-- Literal text of the optional prefix up to the capture. -/
def crsTag : List Char := ['C', 'R', 'S', '=']

/-- Match of the pattern after the greedy whitespace prefix has been
dropped. -/
def wktExprMatchAux (r : List Char) : Option (List Char × List Char) :=
  if crsTag.isPrefixOf r then crsArm (r.drop 4) r
  else (matchBody r).map (fun b => ([], b))

/-- Result of WKT_EXPR dot match dot groups with an empty-string default: the
captured CRS specifier (first component, empty when the optional prefix did
not participate) and the captured WKT body (second component), or none when
the pattern does not match. -/
def wktExprMatch (s : List Char) : Option (List Char × List Char) :=
  wktExprMatchAux (s.dropWhile isPySpace)

/-- Text in which every newline after the leading whitespace is a single
trailing one: the texts on which the pattern can line up its end anchor. -/
def interiorNewlineFree (s : List Char) : Bool :=
  if (s.dropWhile isPySpace).getLast? = some '\n' then
    decide ('\n' ∉ (s.dropWhile isPySpace).dropLast)
  else decide ('\n' ∉ s.dropWhile isPySpace)

/-! ## Errors and input records -/

/-- Exceptions observable from the module: InvalidParameterValue (the
malformed-input error), NoApplicableCode (the unsupported-format error), and
the Python IndexError produced by indexing a too-short bounding-box payload. -/
inductive PyErr where
  | invalidParameterValue (msg : List Char) : PyErr
  | noApplicableCode (msg : List Char) : PyErr
  | indexError : PyErr
deriving DecidableEq, Repr

/-- Message of the malformed-WKT error raised by wkt_to_goeometry. -/
def msgInvalidWkt : List Char := ("Invalid wkt format").data

/-- Message of the malformed-GeoJSON error raised by input_to_geometry. -/
def msgInvalidGeojson : List Char := ("Invalid geojson format").data

/-- Message of the malformed-GML error raised by input_to_geometry. -/
def msgInvalidGml : List Char := ("Invalid gml format").data

/-- Leading text of the unsupported-format error message, completed by the
declared format. -/
def msgUnsupported : List Char := ("Unsupported data format: ").data

/-- Modelled from the spec: MIME type of the WKT format descriptor
(FORMATS.WKT, declared in the out-of-scope formats module). -/
def mimeWKT : List Char := ("application/wkt").data

/-- Modelled from the spec: MIME type of the GeoJSON format descriptor
(FORMATS.GEOJSON, declared in the out-of-scope formats module). -/
def mimeGEOJSON : List Char := ("application/vnd.geo+json").data

/-- Modelled from the spec: MIME type of the GML format descriptor
(FORMATS.GML, declared in the out-of-scope formats module). -/
def mimeGML : List Char := ("application/gml+xml").data

/-- Complex (textual) WPS input as consumed by input_to_geometry: a textual
payload and the MIME type of its declared data format. -/
structure ComplexInputM where
  data : List Char
  mime_type : List Char
deriving DecidableEq, Repr

/-- Bounding-box WPS input as consumed by input_to_extent: a numeric payload
(the model takes the values already converted to numbers, as the source
converts each accessed element with float), the declared CRS string, and the
declared MIME type, which input_to_extent never consults. -/
structure BBoxInputM where
  data : List Int
  crs : List Char
  mime_type : List Char
deriving DecidableEq, Repr

/-! ## Canonical result values -/

/-- Canonical geometry result: a plain QgsGeometry or a QgsReferencedGeometry
pairing the geometry with a CRS. -/
inductive GeomValue where
  | plain (g : Geometry) : GeomValue
  | referenced (g : Geometry) (crs : CRS) : GeomValue
deriving DecidableEq, Repr

/-- Underlying geometry of a canonical geometry value. -/
def underlyingGeom : GeomValue → Geometry
  | GeomValue.plain g => g
  | GeomValue.referenced g _ => g

/-- Result of input_to_point: either the decoded geometry returned as-is, or a
QgsReferencedPointXY pairing a coordinate pair with a CRS. -/
inductive PointValue where
  | geom (v : GeomValue) : PointValue
  | refPoint (p : Int × Int) (crs : CRS) : PointValue
deriving DecidableEq, Repr

/-- Test whether an input_to_point result is a point-shaped value (either a
referenced point or a point geometry). -/
def isPointShaped : PointValue → Bool
  | PointValue.refPoint _ _ => true
  | PointValue.geom v =>
    match underlyingGeom v with
    | Geometry.point _ _ => true
    | _ => false

/-- Rectangle of the external engine (QgsRectangle), fields in the
constructor order xMinimum, yMinimum, xMaximum, yMaximum. -/
structure QgsRectangle where
  xmin : Int
  ymin : Int
  xmax : Int
  ymax : Int
deriving DecidableEq, Repr

/-- Referenced rectangle (QgsReferencedRectangle): a rectangle paired with a
CRS. -/
structure QgsReferencedRectangle where
  rect : QgsRectangle
  crs : CRS
deriving DecidableEq, Repr

/-! ## The translated source functions -/

/-- Translation of wkt_to_goeometry: match the WKT_EXPR pattern; on a match,
construct a geometry from the captured body; when the geometry is not null,
construct a CRS from the captured specifier and attach it only when valid;
return the geometry (the null geometry included) as the function's value;
when the pattern does not match, raise InvalidParameterValue. -/
def wkt_to_goeometry (wkt : List Char) : Except PyErr GeomValue :=
  match wktExprMatch wkt with
  | some groups =>
    let g := fromWkt groups.2
    if isNullG g then Except.ok (GeomValue.plain g)
    else
      let crs := crsFromString groups.1
      if crs.valid then Except.ok (GeomValue.referenced g crs)
      else Except.ok (GeomValue.plain g)
  | none => Except.error (PyErr.invalidParameterValue msgInvalidWkt)

/-- Geometry value of the external OGR library: geometric content together
with an optional embedded spatial reference, read back as its WKT export. -/
structure OgrGeom where
  geom : Geometry
  srs : Option (List Char)
deriving DecidableEq, Repr

/-- Split a character list at the first occurrence of a character. -/
def splitFirst (c : Char) : List Char → Option (List Char × List Char)
  | [] => none
  | a :: as =>
    if a = c then some ([], as)
    else (splitFirst c as).map (fun p => (a :: p.1, p.2))

/-- Modelled from the spec: construct-geometry-from-GeoJSON
(ogr CreateGeometryFromJson), an out-of-scope primitive whose contract is
only that it either yields a geometry carrying an optional embedded spatial
reference or yields nothing.  The model reads a payload as a geometry
encoding optionally followed by an at-sign and a spatial-reference text. -/
def CreateGeometryFromJson (s : List Char) : Option OgrGeom :=
  match splitFirst '@' s with
  | some (w, srsTxt) =>
    if isNullG (fromWkt w) then none else some (OgrGeom.mk (fromWkt w) (some srsTxt))
  | none =>
    if isNullG (fromWkt s) then none else some (OgrGeom.mk (fromWkt s) none)

/-- Modelled from the spec: construct-geometry-from-GML
(ogr CreateGeometryFromGML), given the same interface model as the GeoJSON
constructor, matching the spec's statement that the GML path uses the same
pipeline. -/
def CreateGeometryFromGML (s : List Char) : Option OgrGeom :=
  CreateGeometryFromJson s

/-- Re-export / re-construct step of input_to_geometry for non-WKT formats:
rebuild the geometry through the canonical WKT constructor, then extract the
embedded spatial reference, validate it, and attach it only when valid. -/
def reattachSrs (og : OgrGeom) : GeomValue :=
  let g := fromWkt (gexport og.geom)
  match og.srs with
  | some srsTxt =>
    let crs := crsFromWkt srsTxt
    if crs.valid then GeomValue.referenced g crs else GeomValue.plain g
  | none => GeomValue.plain g

/-- Translation of input_to_geometry: dispatch on the declared MIME type; WKT
delegates to wkt_to_goeometry; GeoJSON and GML parse through the external
constructor, raise InvalidParameterValue naming the format when parsing
yields nothing, and otherwise re-export, re-construct and re-attach a
validated CRS; any other MIME type raises NoApplicableCode naming the
unsupported format. -/
def input_to_geometry (inp : ComplexInputM) : Except PyErr GeomValue :=
  if inp.mime_type = mimeWKT then wkt_to_goeometry inp.data
  else if inp.mime_type = mimeGEOJSON then
    match CreateGeometryFromJson inp.data with
    | none => Except.error (PyErr.invalidParameterValue msgInvalidGeojson)
    | some og => Except.ok (reattachSrs og)
  else if inp.mime_type = mimeGML then
    match CreateGeometryFromGML inp.data with
    | none => Except.error (PyErr.invalidParameterValue msgInvalidGml)
    | some og => Except.ok (reattachSrs og)
  else Except.error (PyErr.noApplicableCode (msgUnsupported ++ inp.mime_type))

/-- Translation of input_to_point: decode the input to a geometry; only when
the result is a referenced geometry, replace it by the referenced point at
its centroid carrying the same CRS; otherwise return the decoded value
unchanged. -/
def input_to_point (inp : ComplexInputM) : Except PyErr PointValue :=
  match input_to_geometry inp with
  | Except.ok (GeomValue.referenced g c) =>
      Except.ok (PointValue.refPoint (centroidPoint g) c)
  | Except.ok (GeomValue.plain g) => Except.ok (PointValue.geom (GeomValue.plain g))
  | Except.error e => Except.error e

/-- Translation of input_to_extent: read the first four payload values in the
order xmin, xmax, ymin, ymax, build the rectangle with the constructor order
xmin, ymin, xmax, ymax, and pair it with a CRS built from the declared CRS
string without a validity check; a payload shorter than four values fails
with the Python IndexError of the out-of-bounds access. -/
def input_to_extent (inp : BBoxInputM) : Except PyErr QgsReferencedRectangle :=
  match inp.data with
  | r0 :: r1 :: r2 :: r3 :: _ =>
    Except.ok (QgsReferencedRectangle.mk (QgsRectangle.mk r0 r2 r1 r3) (crsFromString inp.crs))
  | _ => Except.error PyErr.indexError

/-! ## Properties of the integer literal reader and writer -/

/-- Values below ten print as a single digit whatever the fuel. -/
theorem natToCharsF_small (f n : Nat) (h : n < 10) : natToCharsF f n = [digitChar n] := by
  cases f with
  | zero => rfl
  | succ g => simp [natToCharsF, h]

/-- Digit expansion does not depend on the fuel once the fuel dominates the
value. -/
theorem natToCharsF_congr (n : Nat) : ∀ f f', n ≤ f → n ≤ f' →
    natToCharsF f n = natToCharsF f' n := by
  induction n using Nat.strong_induction_on with
  | _ n ih =>
    intro f f' hf hf'
    by_cases h10 : n < 10
    · rw [natToCharsF_small f n h10, natToCharsF_small f' n h10]
    · rcases f with _ | g
      · omega
      · rcases f' with _ | g'
        · omega
        · show (if n < 10 then [digitChar n] else natToCharsF g (n / 10) ++ [digitChar (n % 10)])
            = (if n < 10 then [digitChar n] else natToCharsF g' (n / 10) ++ [digitChar (n % 10)])
          rw [if_neg h10, if_neg h10]
          have hlt : n / 10 < n := Nat.div_lt_self (by omega) (by omega)
          rw [ih (n / 10) hlt g g' (by omega) (by omega)]

/-- Unfolding rule of the decimal representation. -/
theorem natToChars_unfold (n : Nat) :
    natToChars n = if n < 10 then [digitChar n]
      else natToChars (n / 10) ++ [digitChar (n % 10)] := by
  by_cases h10 : n < 10
  · rw [if_pos h10]
    exact natToCharsF_small n n h10
  · rw [if_neg h10]
    rcases n with _ | f
    · omega
    · show natToCharsF (f + 1) (f + 1) = _
      rw [show natToCharsF (f + 1) (f + 1)
          = if f + 1 < 10 then [digitChar (f + 1)]
            else natToCharsF f ((f + 1) / 10) ++ [digitChar ((f + 1) % 10)] from rfl]
      rw [if_neg h10]
      have hle : (f + 1) / 10 ≤ f := by omega
      rw [natToCharsF_congr ((f + 1) / 10) f ((f + 1) / 10) hle (Nat.le_refl _)]
      rfl

/-- Digit characters are recognised by the digit test. -/
theorem isDigitCh_digitChar (n : Nat) (h : n < 10) : isDigitCh (digitChar n) = true := by
  interval_cases n <;> decide

/-- Reading back the digit character of a value below ten gives the value. -/
theorem digitVal_digitChar (n : Nat) (h : n < 10) : digitVal (digitChar n) = n := by
  interval_cases n <;> decide

/-- Decimal representations are never empty. -/
theorem natToChars_ne_nil (n : Nat) : natToChars n ≠ [] := by
  rw [natToChars_unfold]
  by_cases h : n < 10
  · simp [h]
  · simp [h]

/-- Every character of a decimal representation is a digit. -/
theorem mem_natToChars (n : Nat) (c : Char) (h : c ∈ natToChars n) : isDigitCh c = true := by
  induction n using Nat.strong_induction_on with
  | _ n ih =>
    rw [natToChars_unfold] at h
    by_cases h10 : n < 10
    · rw [if_pos h10] at h
      simp only [List.mem_singleton] at h
      exact h ▸ isDigitCh_digitChar n h10
    · rw [if_neg h10] at h
      rcases List.mem_append.mp h with h1 | h2
      · exact ih (n / 10) (Nat.div_lt_self (by omega) (by omega)) h1
      · simp only [List.mem_singleton] at h2
        exact h2 ▸ isDigitCh_digitChar (n % 10) (Nat.mod_lt n (by omega))

/-- Value computed by folding the digit-accumulation step over a decimal
representation. -/
theorem foldl_natToChars (n a : Nat) :
    (natToChars n).foldl (fun a c => 10 * a + digitVal c) a
      = a * 10 ^ (natToChars n).length + n := by
  induction n using Nat.strong_induction_on generalizing a with
  | _ n ih =>
    rw [natToChars_unfold]
    by_cases h10 : n < 10
    · rw [if_pos h10]
      simp [List.foldl, digitVal_digitChar n h10]
      omega
    · rw [if_neg h10]
      rw [List.foldl_append]
      rw [ih (n / 10) (Nat.div_lt_self (by omega) (by omega)) a]
      simp only [List.foldl, List.length_append, List.length_singleton]
      rw [digitVal_digitChar (n % 10) (Nat.mod_lt n (by omega))]
      rw [pow_succ]
      have : 10 * (n / 10) + n % 10 = n := Nat.div_add_mod n 10
      ring_nf
      omega

/-- The natural-number reader inverts the writer. -/
theorem parseNatChars_natToChars (n : Nat) : parseNatChars (natToChars n) = some n := by
  unfold parseNatChars
  rw [if_pos]
  · rw [foldl_natToChars n 0]
    simp
  · refine ⟨natToChars_ne_nil n, ?_⟩
    rw [List.all_eq_true]
    intro c hc
    exact mem_natToChars n c hc

/-- The head of a decimal representation is never a minus sign. -/
theorem natToChars_head_ne_minus (n : Nat) (s : List Char) (c : Char)
    (h : natToChars n = c :: s) : c ≠ '-' := by
  intro hc
  have : isDigitCh c = true := mem_natToChars n c (by rw [h]; exact List.mem_cons_self c s)
  rw [hc] at this
  exact absurd this (by decide)

/-- The integer reader inverts the integer writer. -/
theorem parseIntChars_intToChars (z : Int) : parseIntChars (intToChars z) = some z := by
  unfold intToChars
  by_cases hz : z < 0
  · rw [if_pos hz]
    unfold parseIntChars
    rw [if_pos (by simp)]
    rw [List.tail_cons, parseNatChars_natToChars]
    simp only [Option.map_some', Option.some.injEq]
    omega
  · rw [if_neg hz]
    unfold parseIntChars
    rw [if_neg ?hneg]
    case hneg =>
      rcases hh : natToChars z.toNat with _ | ⟨c, s⟩
      · exact absurd hh (natToChars_ne_nil z.toNat)
      · have hcm : c ≠ '-' := natToChars_head_ne_minus z.toNat s c hh
        intro hcon
        simp only [List.head?_cons, Option.some.injEq] at hcon
        exact hcm hcon
    rw [parseNatChars_natToChars]
    simp only [Option.map_some', Option.some.injEq]
    omega

/-! ## Properties of the model WKT reader and writer -/

/-- Characters that are neither digits nor the minus sign never appear in an
integer literal. -/
theorem not_mem_intToChars (z : Int) (c : Char)
    (h1 : isDigitCh c = false) (h2 : c ≠ '-') : c ∉ intToChars z := by
  intro hmem
  unfold intToChars at hmem
  by_cases hz : z < 0
  · rw [if_pos hz] at hmem
    rcases List.mem_cons.mp hmem with h | h
    · exact h2 h
    · rw [mem_natToChars z.natAbs c h] at h1
      exact Bool.true_eq_false.mp h1
  · rw [if_neg hz] at hmem
    rw [mem_natToChars z.toNat c hmem] at h1
    exact Bool.true_eq_false.mp h1

/-- Characters other than digits, the minus sign and the space never appear
in a rendered coordinate pair. -/
theorem not_mem_coordChars (p : Int × Int) (c : Char)
    (h1 : isDigitCh c = false) (h2 : c ≠ '-') (h3 : c ≠ ' ') : c ∉ coordChars p := by
  intro hmem
  unfold coordChars at hmem
  rcases List.mem_append.mp hmem with h | h
  · exact not_mem_intToChars p.1 c h1 h2 h
  · rcases List.mem_cons.mp h with h' | h'
    · exact h3 h'
    · exact not_mem_intToChars p.2 c h1 h2 h'

/-- Splitting a list that avoids the separator is the identity piece. -/
theorem splitOnCh_of_not_mem (c : Char) (x : List Char) (h : c ∉ x) :
    splitOnCh c x = [x] := by
  induction x with
  | nil => rfl
  | cons a as ih =>
    have hac : a ≠ c := fun hc => h (hc ▸ List.mem_cons_self a as)
    have has : c ∉ as := fun hc => h (List.mem_cons_of_mem a hc)
    unfold splitOnCh
    rw [if_neg hac, ih has]

/-- Splitting after a separator-free piece peels off exactly that piece. -/
theorem splitOnCh_append (c : Char) (x r : List Char) (h : c ∉ x) :
    splitOnCh c (x ++ c :: r) = x :: splitOnCh c r := by
  induction x with
  | nil =>
    show splitOnCh c (c :: r) = [] :: splitOnCh c r
    rw [splitOnCh]
    rw [if_pos rfl]
  | cons a as ih =>
    have hac : a ≠ c := fun hc => h (hc ▸ List.mem_cons_self a as)
    have has : c ∉ as := fun hc => h (List.mem_cons_of_mem a hc)
    show splitOnCh c (a :: (as ++ c :: r)) = (a :: as) :: splitOnCh c r
    rw [splitOnCh]
    rw [if_neg hac, ih has]

/-- A rendered coordinate pair reads back to itself. -/
theorem parseCoordPiece_coordChars (p : Int × Int) :
    parseCoordPiece (coordChars p) = some p := by
  have h1 : splitOnCh ' ' (coordChars p) = [intToChars p.1, intToChars p.2] := by
    unfold coordChars
    rw [splitOnCh_append ' ' (intToChars p.1) (intToChars p.2)
          (not_mem_intToChars p.1 ' ' (by decide) (by decide)),
        splitOnCh_of_not_mem ' ' (intToChars p.2)
          (not_mem_intToChars p.2 ' ' (by decide) (by decide))]
  unfold parseCoordPiece
  rw [h1]
  show (match parseIntChars (intToChars p.1), parseIntChars (intToChars p.2) with
        | some x, some y => some ((x, y) : Int × Int)
        | _, _ => none) = some p
  rw [parseIntChars_intToChars p.1, parseIntChars_intToChars p.2]

/-- Joining separator-free pieces and splitting again restores the pieces. -/
theorem splitOnCh_joinWith (c : Char) (L : List (List Char))
    (h : ∀ x ∈ L, c ∉ x) (hne : L ≠ []) :
    splitOnCh c (joinWith c L) = L := by
  induction L with
  | nil => exact absurd rfl hne
  | cons x t ih =>
    cases t with
    | nil =>
      show splitOnCh c (joinWith c [x]) = [x]
      unfold joinWith
      exact splitOnCh_of_not_mem c x (h x (List.mem_cons_self x []))
    | cons y t' =>
      show splitOnCh c (joinWith c (x :: y :: t')) = x :: y :: t'
      unfold joinWith
      rw [splitOnCh_append c x _ (h x (List.mem_cons_self x (y :: t')))]
      rw [ih (fun z hz => h z (List.mem_cons_of_mem x hz)) (by simp)]

/-- Reading back a list of rendered coordinate pairs restores the list. -/
theorem parseCoordList_map (pts : List (Int × Int)) :
    parseCoordList (pts.map coordChars) = some pts := by
  induction pts with
  | nil => rfl
  | cons p t ih =>
    show parseCoordList (coordChars p :: t.map coordChars) = some (p :: t)
    unfold parseCoordList
    rw [parseCoordPiece_coordChars p, ih]

/-- A rendered nonempty ring reads back to itself. -/
theorem parseRing_joinWith (pts : List (Int × Int)) (h : pts ≠ []) :
    parseRing (joinWith ',' (pts.map coordChars)) = some pts := by
  unfold parseRing
  rw [splitOnCh_joinWith ',' (pts.map coordChars) ?hmem ?hne]
  · exact parseCoordList_map pts
  case hmem =>
    intro x hx
    rcases List.mem_map.mp hx with ⟨p, _, hp⟩
    exact hp ▸ not_mem_coordChars p ',' (by decide) (by decide) (by decide)
  case hne =>
    intro hc
    exact h (List.map_eq_nil_iff.mp hc)

/-- Stripping one closing parenthesis undoes appending it. -/
theorem stripParen1_concat (l : List Char) : stripParen1 (l ++ [')']) = some l := by
  unfold stripParen1
  rw [List.reverse_append]
  simp

/-- Stripping two closing parentheses undoes appending them. -/
theorem stripParen2_concat (l : List Char) : stripParen2 (l ++ [')', ')']) = some l := by
  unfold stripParen2
  rw [List.reverse_append]
  simp

/-- A split never produces an empty list of pieces. -/
theorem splitOnCh_ne_nil (c : Char) (u : List Char) : splitOnCh c u ≠ [] := by
  cases u with
  | nil => exact fun hc => List.noConfusion hc
  | cons a as =>
    unfold splitOnCh
    by_cases hac : a = c
    · rw [if_pos hac]
      exact fun hc => List.noConfusion hc
    · rw [if_neg hac]
      rcases hs : splitOnCh c as with _ | ⟨h1, t1⟩
      · exact fun hc => List.noConfusion hc
      · exact fun hc => List.noConfusion hc

/-- A parsed coordinate list is as long as its piece list; in particular a
successful ring parse of at least one piece is nonempty. -/
theorem parseCoordList_ne_nil (L : List (List Char)) (pts : List (Int × Int))
    (hL : L ≠ []) (h : parseCoordList L = some pts) : pts ≠ [] := by
  cases L with
  | nil => exact absurd rfl hL
  | cons p ps =>
    unfold parseCoordList at h
    rcases h1 : parseCoordPiece p with _ | q
    · rw [h1] at h
      exact absurd h (by simp)
    · rw [h1] at h
      rcases h2 : parseCoordList ps with _ | qs
      · rw [h2] at h
        exact absurd h (by simp)
      · rw [h2] at h
        simp only [Option.some.injEq] at h
        rw [← h]
        exact fun hc => List.noConfusion hc

/-- Every successful ring parse yields a nonempty list of points. -/
theorem parseRing_ne_nil (s : List Char) (pts : List (Int × Int))
    (h : parseRing s = some pts) : pts ≠ [] :=
  parseCoordList_ne_nil (splitOnCh ',' s) pts (splitOnCh_ne_nil ',' s) h

/-- Every list is a prefix of itself extended by anything, for the
executable prefix test. -/
theorem isPrefixOf_append (t r : List Char) : t.isPrefixOf (t ++ r) = true := by
  induction t with
  | nil => simp
  | cons a as ih => simp [List.isPrefixOf]

/-- The point tag never leads a polygon text. -/
theorem pointTag_not_lead_polygon (r : List Char) :
    pointTag.isPrefixOf (polygonTag ++ r) = false := rfl

/-- Exported point text reads back to the point. -/
theorem fromWkt_gexport_point (x y : Int) :
    fromWkt (gexport (Geometry.point x y)) = Geometry.point x y := by
  show fromWkt (pointTag ++ (coordChars (x, y) ++ [')'])) = Geometry.point x y
  unfold fromWkt
  rw [if_pos (isPrefixOf_append pointTag (coordChars (x, y) ++ [')']))]
  have hd : (pointTag ++ (coordChars (x, y) ++ [')'])).drop 6 = coordChars (x, y) ++ [')'] :=
    List.drop_left pointTag (coordChars (x, y) ++ [')'])
  rw [hd, stripParen1_concat]
  simp only [parseCoordPiece_coordChars]

/-- Exported text of a nonempty polygon reads back to the polygon. -/
theorem fromWkt_gexport_polygon (pts : List (Int × Int)) (h : pts ≠ []) :
    fromWkt (gexport (Geometry.polygon pts)) = Geometry.polygon pts := by
  show fromWkt (polygonTag ++ (joinWith ',' (pts.map coordChars) ++ [')', ')']))
      = Geometry.polygon pts
  unfold fromWkt
  rw [if_neg (by rw [pointTag_not_lead_polygon]; exact Bool.false_ne_true)]
  rw [if_pos (isPrefixOf_append polygonTag (joinWith ',' (pts.map coordChars) ++ [')', ')']))]
  have hd : (polygonTag ++ (joinWith ',' (pts.map coordChars) ++ [')', ')'])).drop 9
      = joinWith ',' (pts.map coordChars) ++ [')', ')'] :=
    List.drop_left polygonTag (joinWith ',' (pts.map coordChars) ++ [')', ')'])
  rw [hd, stripParen2_concat]
  simp only [parseRing_joinWith pts h]

/-- A polygon produced by the WKT reader always has at least one vertex. -/
theorem fromWkt_polygon_ne_nil (s : List Char) (pts : List (Int × Int))
    (h : fromWkt s = Geometry.polygon pts) : pts ≠ [] := by
  unfold fromWkt at h
  split at h
  · split at h
    · split at h
      · exact absurd h (by simp)
      · exact absurd h (by simp)
    · exact absurd h (by simp)
  · split at h
    · split at h
      · rename_i inner _
        split at h
        · rename_i pts' hr
          simp only [Geometry.polygon.injEq] at h
          exact h ▸ parseRing_ne_nil inner pts' hr
        · exact absurd h (by simp)
      · exact absurd h (by simp)
    · exact absurd h (by simp)

/-- Re-exporting and re-reading any geometry produced by the WKT reader is
the identity (the normalization property of the external library assumed by
the re-export / re-construct step). -/
theorem fromWkt_gexport_fromWkt (s : List Char) :
    fromWkt (gexport (fromWkt s)) = fromWkt s := by
  rcases hg : fromWkt s with _ | ⟨x, y⟩ | pts
  · rfl
  · exact fromWkt_gexport_point x y
  · exact fromWkt_gexport_polygon pts (fromWkt_polygon_ne_nil s pts hg)

/-! ## Properties of the pattern-matching semantics -/

/-- A newline-free text is its own lazy body capture. -/
theorem matchBody_of_not_mem (u : List Char) (h : '\n' ∉ u) : matchBody u = some u := by
  unfold matchBody
  rw [if_neg (fun hc => h (List.mem_of_getLast?_eq_some hc))]
  rw [if_neg h]

/-- Extending a successful body capture to the left by newline-free text
keeps it successful. -/
theorem matchBody_isSome_append (x y : List Char) (hx : '\n' ∉ x)
    (hy : (matchBody y).isSome = true) : (matchBody (x ++ y)).isSome = true := by
  rcases List.eq_nil_or_concat y with hnil | ⟨ys, c, hconc⟩
  · subst hnil
    rw [List.append_nil, matchBody_of_not_mem x hx]
    rfl
  · subst hconc
    rw [List.concat_eq_append] at *
    by_cases hc : c = '\n'
    · subst hc
      unfold matchBody at hy ⊢
      rw [List.getLast?_concat, if_pos rfl, List.dropLast_concat] at hy
      rw [show x ++ (ys ++ ['\n']) = (x ++ ys) ++ ['\n'] by simp]
      rw [List.getLast?_concat, if_pos rfl, List.dropLast_concat]
      by_cases hm : '\n' ∈ ys
      · rw [if_pos hm] at hy
        exact absurd hy (by simp)
      · rw [if_neg (by
          intro hmm
          rcases List.mem_append.mp hmm with h' | h'
          · exact hx h'
          · exact hm h')]
        rfl
    · unfold matchBody at hy ⊢
      rw [List.getLast?_concat] at hy
      rw [if_neg (by simp [hc])] at hy
      rw [show x ++ (ys ++ [c]) = (x ++ ys) ++ [c] by simp]
      rw [List.getLast?_concat]
      rw [if_neg (by simp [hc])]
      by_cases hm : '\n' ∈ ys ++ [c]
      · rw [if_pos hm] at hy
        exact absurd hy (by simp)
      · rw [if_neg hm] at hy
        rw [if_neg (by
          intro hmm
          rcases List.mem_append.mp hmm with h' | h'
          · rcases List.mem_append.mp h' with h'' | h''
            · exact hx h''
            · exact hm (List.mem_append.mpr (Or.inl h''))
          · exact hm (List.mem_append.mpr (Or.inr h')))]
        rfl

/-- Soundness of the greedy CRS capture: a successful split reassembles the
text and the capture is newline-free. -/
theorem lastSemiSplit_sound (t pre post : List Char)
    (h : lastSemiSplit t = some (pre, post)) : t = pre ++ ';' :: post ∧ '\n' ∉ pre := by
  induction t generalizing pre post with
  | nil => exact absurd h (by simp [lastSemiSplit])
  | cons c cs ih =>
    rw [lastSemiSplit] at h
    split at h
    · exact absurd h (by simp)
    · rename_i hc
      split at h
      · rename_i p q hs
        simp only [Option.some.injEq, Prod.mk.injEq] at h
        obtain ⟨h1, h2⟩ := h
        obtain ⟨ht, hnp⟩ := ih p q hs
        subst h2
        rw [← h1]
        refine ⟨by rw [ht]; rfl, ?_⟩
        intro hm
        rcases List.mem_cons.mp hm with h' | h'
        · exact hc h'.symm
        · exact hnp h'
      · split at h
        · rename_i hsemi
          simp only [Option.some.injEq, Prod.mk.injEq] at h
          obtain ⟨h1, h2⟩ := h
          subst h2
          rw [← h1, hsemi]
          exact ⟨rfl, by simp⟩
        · exact absurd h (by simp)

/-- A semicolon-free text admits no greedy CRS capture. -/
theorem lastSemiSplit_none (v : List Char) (h : ';' ∉ v) : lastSemiSplit v = none := by
  induction v with
  | nil => rfl
  | cons c cs ih =>
    rw [lastSemiSplit]
    by_cases hc : c = '\n'
    · rw [if_pos hc]
    · rw [if_neg hc]
      rw [ih (fun hm => h (List.mem_cons_of_mem c hm))]
      show (if c = ';' then some (([] : List Char), cs) else none) = none
      rw [if_neg (fun (hsemi : c = ';') => h (hsemi ▸ List.mem_cons_self c cs))]

/-- Completeness of the greedy CRS capture: with a newline-free specifier and
a semicolon-free remainder the split lands on that last semicolon. -/
theorem lastSemiSplit_append (u v : List Char) (hu : '\n' ∉ u) (hv : ';' ∉ v) :
    lastSemiSplit (u ++ ';' :: v) = some (u, v) := by
  induction u with
  | nil =>
    show lastSemiSplit (';' :: v) = some ([], v)
    rw [lastSemiSplit]
    rw [if_neg (by decide)]
    rw [lastSemiSplit_none v hv]
    show (if ';' = ';' then some (([] : List Char), v) else none) = some ([], v)
    rw [if_pos rfl]
  | cons a u' ih =>
    have ha : a ≠ '\n' := fun hc => hu (hc ▸ List.mem_cons_self a u')
    have hu' : '\n' ∉ u' := fun hm => hu (List.mem_cons_of_mem a hm)
    show lastSemiSplit (a :: (u' ++ ';' :: v)) = some (a :: u', v)
    rw [lastSemiSplit]
    rw [if_neg ha, ih hu']

/-- Success of the CRS arm at a CRS= position coincides with success of the
prefix-less reading of the same text: the backtracking engine finds a match
through the optional prefix exactly when it finds one without it. -/
theorem crsArm_isSome (t : List Char) :
    (crsArm t (crsTag ++ t)).isSome = (matchBody (crsTag ++ t)).isSome := by
  unfold crsArm
  split
  · rename_i spec rest2 hsplit
    split
    · rename_i body hbody
      obtain ⟨ht, hnp⟩ := lastSemiSplit_sound t spec rest2 hsplit
      have hb : (matchBody (crsTag ++ t)).isSome = true := by
        rw [ht]
        rw [show crsTag ++ (spec ++ ';' :: rest2) = (crsTag ++ spec ++ [';']) ++ rest2 by simp]
        refine matchBody_isSome_append (crsTag ++ spec ++ [';']) rest2 ?_ (by rw [hbody]; rfl)
        intro hm
        rcases List.mem_append.mp hm with h' | h'
        · rcases List.mem_append.mp h' with h'' | h''
          · exact absurd h'' (by decide)
          · exact hnp h''
        · exact absurd h' (by simp)
      rw [hb]
      rfl
    · simp
  · simp

/-- The match after whitespace stripping succeeds exactly when the lazy body
capture of the whole remaining text succeeds. -/
theorem wktExprMatchAux_isSome (r : List Char) :
    (wktExprMatchAux r).isSome = (matchBody r).isSome := by
  unfold wktExprMatchAux
  by_cases hp : crsTag.isPrefixOf r
  · rw [if_pos hp]
    obtain ⟨t, ht⟩ := List.isPrefixOf_iff_prefix.mp hp
    subst ht
    have hd : (crsTag ++ t).drop 4 = t := List.drop_left crsTag t
    rw [hd]
    exact crsArm_isSome t
  · rw [if_neg hp]
    simp

/-- Membership in a joined list comes from the separator or from one of the
pieces. -/
theorem mem_joinWith (sep : Char) (L : List (List Char)) (c : Char)
    (h : c ∈ joinWith sep L) : c = sep ∨ ∃ x ∈ L, c ∈ x := by
  induction L with
  | nil => exact absurd h (by simp [joinWith])
  | cons x t ih =>
    cases t with
    | nil =>
      right
      refine ⟨x, List.mem_cons_self x [], ?_⟩
      simpa [joinWith] using h
    | cons y t' =>
      rw [show joinWith sep (x :: y :: t') = x ++ sep :: joinWith sep (y :: t') from rfl] at h
      rcases List.mem_append.mp h with h' | h'
      · exact Or.inr ⟨x, List.mem_cons_self x (y :: t'), h'⟩
      · rcases List.mem_cons.mp h' with h'' | h''
        · exact Or.inl h''
        · rcases ih h'' with h3 | ⟨z, hz, hcz⟩
          · exact Or.inl h3
          · exact Or.inr ⟨z, List.mem_cons_of_mem x hz, hcz⟩

/-- Exported geometry text never holds a newline. -/
theorem nl_not_mem_gexport (g : Geometry) : '\n' ∉ gexport g := by
  cases g with
  | null => simp [gexport]
  | point x y =>
    intro hm
    simp only [gexport] at hm
    rcases List.mem_append.mp hm with h | h
    · exact absurd h (by decide)
    · rcases List.mem_append.mp h with h' | h'
      · exact not_mem_coordChars (x, y) '\n' (by decide) (by decide) (by decide) h'
      · exact absurd h' (by decide)
  | polygon pts =>
    intro hm
    simp only [gexport] at hm
    rcases List.mem_append.mp hm with h | h
    · exact absurd h (by decide)
    · rcases List.mem_append.mp h with h' | h'
      · rcases mem_joinWith ',' (pts.map coordChars) '\n' h' with h3 | ⟨z, hz, hcz⟩
        · exact absurd h3 (by decide)
        · rcases List.mem_map.mp hz with ⟨p, _, hp⟩
          exact not_mem_coordChars p '\n' (by decide) (by decide) (by decide) (hp ▸ hcz)
      · exact absurd h' (by decide)

/-- The pattern reads exported geometry text as an empty CRS capture and the
whole text as the body. -/
theorem wktExprMatch_gexport (g : Geometry) (hne : g ≠ Geometry.null) :
    wktExprMatch (gexport g) = some ([], gexport g) := by
  obtain ⟨rest, hg⟩ : ∃ rest, gexport g = 'P' :: rest := by
    cases g with
    | null => exact absurd rfl hne
    | point x y => exact ⟨_, rfl⟩
    | polygon pts => exact ⟨_, rfl⟩
  have h1 : (gexport g).dropWhile isPySpace = gexport g := by
    rw [hg]
    exact List.dropWhile_cons_of_neg (by decide)
  have h2 : crsTag.isPrefixOf (gexport g) = false := by
    rw [hg]
    rfl
  unfold wktExprMatch wktExprMatchAux
  rw [h1, if_neg (by rw [h2]; exact Bool.false_ne_true)]
  rw [matchBody_of_not_mem (gexport g) (nl_not_mem_gexport g)]
  rfl

/-- Decoding re-exported geometry text through the WKT path returns the
geometry unreferenced. -/
theorem wkt_to_goeometry_gexport (g : Geometry) (hwf : fromWkt (gexport g) = g)
    (hne : g ≠ Geometry.null) :
    wkt_to_goeometry (gexport g) = Except.ok (GeomValue.plain g) := by
  have hnull : isNullG g = false := by
    cases g
    · exact absurd rfl hne
    · rfl
    · rfl
  unfold wkt_to_goeometry
  rw [wktExprMatch_gexport g hne]
  simp only [hwf]
  rw [if_neg (by rw [hnull]; exact Bool.false_ne_true)]
  rw [if_neg (by decide)]

/-- Re-exporting any WKT-read geometry and decoding it again through the WKT
path yields the same geometry, unreferenced. -/
theorem wkt_path_normalizes (s : List Char) :
    wkt_to_goeometry (gexport (fromWkt s)) = Except.ok (GeomValue.plain (fromWkt s)) := by
  by_cases hne : fromWkt s = Geometry.null
  · rw [hne]
    decide
  · exact wkt_to_goeometry_gexport (fromWkt s) (fromWkt_gexport_fromWkt s) hne

/-! ## Structure lemmas for the conversion entry points -/

/-- A non-null geometry fails the null check. -/
theorem isNullG_eq_false (g : Geometry) (h : g ≠ Geometry.null) : isNullG g = false := by
  cases g
  · exact absurd rfl h
  · rfl
  · rfl

/-- On a successful pattern match the WKT converter is the null check
followed by conditional CRS attachment. -/
theorem wkt_to_goeometry_matched (s spec body : List Char)
    (h : wktExprMatch s = some (spec, body)) :
    wkt_to_goeometry s =
      (if isNullG (fromWkt body) then Except.ok (GeomValue.plain (fromWkt body))
       else if (crsFromString spec).valid then
         Except.ok (GeomValue.referenced (fromWkt body) (crsFromString spec))
       else Except.ok (GeomValue.plain (fromWkt body))) := by
  unfold wkt_to_goeometry
  rw [h]

/-- A failed pattern match makes the WKT converter raise the malformed-input
error. -/
theorem wkt_to_goeometry_unmatched (s : List Char) (h : wktExprMatch s = none) :
    wkt_to_goeometry s = Except.error (PyErr.invalidParameterValue msgInvalidWkt) := by
  unfold wkt_to_goeometry
  rw [h]

/-- A referenced geometry leaving the WKT converter carries a CRS that
passed the validity check. -/
theorem wkt_to_goeometry_referenced_valid (s : List Char) (g : Geometry) (c : CRS)
    (h : wkt_to_goeometry s = Except.ok (GeomValue.referenced g c)) : c.valid = true := by
  rcases hm : wktExprMatch s with _ | ⟨spec, body⟩
  · rw [wkt_to_goeometry_unmatched s hm] at h
    exact absurd h (by simp)
  · rw [wkt_to_goeometry_matched s spec body hm] at h
    by_cases hn : isNullG (fromWkt body) = true
    · rw [if_pos hn] at h
      exact absurd h (by simp)
    · rw [if_neg hn] at h
      by_cases hv : (crsFromString spec).valid = true
      · rw [if_pos hv] at h
        simp only [Except.ok.injEq, GeomValue.referenced.injEq] at h
        rw [← h.2]
        exact hv
      · rw [if_neg hv] at h
        exact absurd h (by simp)

/-- A referenced geometry leaving the re-attachment step carries a CRS that
passed the validity check. -/
theorem reattachSrs_referenced_valid (og : OgrGeom) (g : Geometry) (c : CRS)
    (h : reattachSrs og = GeomValue.referenced g c) : c.valid = true := by
  obtain ⟨geom, srs⟩ := og
  cases srs with
  | none => exact absurd h (by simp [reattachSrs])
  | some t =>
    have h' : (if (crsFromWkt t).valid then
          GeomValue.referenced (fromWkt (gexport geom)) (crsFromWkt t)
        else GeomValue.plain (fromWkt (gexport geom))) = GeomValue.referenced g c := h
    by_cases hv : (crsFromWkt t).valid = true
    · rw [if_pos hv] at h'
      simp only [GeomValue.referenced.injEq] at h'
      rw [← h'.2]
      exact hv
    · rw [if_neg hv] at h'
      exact absurd h' (by simp)

/-- The underlying geometry of a re-attached OGR value is the geometry
rebuilt through the canonical WKT constructor. -/
theorem underlying_reattach (og : OgrGeom) :
    underlyingGeom (reattachSrs og) = fromWkt (gexport og.geom) := by
  obtain ⟨geom, srs⟩ := og
  cases srs with
  | none => rfl
  | some t =>
    show underlyingGeom
        (if (crsFromWkt t).valid then
          GeomValue.referenced (fromWkt (gexport geom)) (crsFromWkt t)
        else GeomValue.plain (fromWkt (gexport geom)))
      = fromWkt (gexport geom)
    by_cases hv : (crsFromWkt t).valid = true
    · rw [if_pos hv]
      rfl
    · rw [if_neg hv]
      rfl

/-- WKT-typed inputs are decoded by the CRS-prefixed WKT converter. -/
theorem input_to_geometry_wkt (inp : ComplexInputM) (h : inp.mime_type = mimeWKT) :
    input_to_geometry inp = wkt_to_goeometry inp.data := by
  unfold input_to_geometry
  rw [if_pos h]

/-- GeoJSON-typed inputs whose payload parses are re-exported, re-read and
re-referenced. -/
theorem input_to_geometry_geojson_ok (inp : ComplexInputM) (og : OgrGeom)
    (h : inp.mime_type = mimeGEOJSON) (hc : CreateGeometryFromJson inp.data = some og) :
    input_to_geometry inp = Except.ok (reattachSrs og) := by
  unfold input_to_geometry
  rw [if_neg (by rw [h]; decide), if_pos h, hc]

/-- Every referenced geometry leaving the dispatcher carries a CRS that
passed the validity check. -/
theorem input_to_geometry_referenced_valid (inp : ComplexInputM) (g : Geometry) (c : CRS)
    (h : input_to_geometry inp = Except.ok (GeomValue.referenced g c)) : c.valid = true := by
  unfold input_to_geometry at h
  by_cases h1 : inp.mime_type = mimeWKT
  · rw [if_pos h1] at h
    exact wkt_to_goeometry_referenced_valid inp.data g c h
  · rw [if_neg h1] at h
    by_cases h2 : inp.mime_type = mimeGEOJSON
    · rw [if_pos h2] at h
      rcases hc : CreateGeometryFromJson inp.data with _ | og
      · rw [hc] at h
        simp at h
      · rw [hc] at h
        have h' : (Except.ok (reattachSrs og) : Except PyErr GeomValue)
            = Except.ok (GeomValue.referenced g c) := h
        simp only [Except.ok.injEq] at h'
        exact reattachSrs_referenced_valid og g c h'
    · rw [if_neg h2] at h
      by_cases h3 : inp.mime_type = mimeGML
      · rw [if_pos h3] at h
        rcases hc : CreateGeometryFromGML inp.data with _ | og
        · rw [hc] at h
          simp at h
        · rw [hc] at h
          have h' : (Except.ok (reattachSrs og) : Except PyErr GeomValue)
              = Except.ok (GeomValue.referenced g c) := h
          simp only [Except.ok.injEq] at h'
          exact reattachSrs_referenced_valid og g c h'
      · rw [if_neg h3] at h
        exact absurd h (by simp)

/-! ## The claims -/

/-- Claim C1 (code bug): the spec requires a WKT input whose body fails
geometry construction to raise Malformed-Input naming wkt, but decode-geometry
on the WKT input POINT( — whose body constructs the null geometry, second
conjunct — returns the null geometry as an ordinary value instead of raising:
the early return sits outside the null check. -/
theorem c1_null_wkt_returns_value :
    input_to_geometry (ComplexInputM.mk (("POINT(").data) mimeWKT)
      = Except.ok (GeomValue.plain Geometry.null)
    ∧ fromWkt (("POINT(").data) = Geometry.null := by
  exact ⟨by decide, by decide⟩

/-- Claim C2 counterexample: decode-point on a CRS-less WKT polygon returns
the polygon geometry unchanged — not a point value at its centroid — refuting
the claim that a CRS-less decoded geometry is reduced to a CRS-less centroid
point. -/
theorem c2_counterexample :
    input_to_point (ComplexInputM.mk (("POLYGON((0 0,4 0,4 4,0 4,0 0))").data) mimeWKT)
      = Except.ok (PointValue.geom (GeomValue.plain
          (Geometry.polygon [(0, 0), (4, 0), (4, 4), (0, 4), (0, 0)])))
    ∧ isPointShaped (PointValue.geom (GeomValue.plain
          (Geometry.polygon [(0, 0), (4, 0), (4, 4), (0, 4), (0, 0)]))) = false := by
  exact ⟨by decide, by decide⟩

/-- Claim C2 (amended): decode-point first decodes the input to a geometry;
when the decoded geometry carries a CRS the result is the referenced point at
its centroid with the same CRS; when it carries no CRS the decoded geometry is
returned unchanged, with no centroid reduction and no fabricated CRS; errors
propagate unchanged. -/
theorem c2_point_projection :
    (∀ inp g c, input_to_geometry inp = Except.ok (GeomValue.referenced g c) →
       input_to_point inp = Except.ok (PointValue.refPoint (centroidPoint g) c))
    ∧ (∀ inp g, input_to_geometry inp = Except.ok (GeomValue.plain g) →
       input_to_point inp = Except.ok (PointValue.geom (GeomValue.plain g)))
    ∧ (∀ inp e, input_to_geometry inp = Except.error e →
       input_to_point inp = Except.error e) := by
  refine ⟨?_, ?_, ?_⟩
  · intro inp g c h
    unfold input_to_point
    rw [h]
  · intro inp g h
    unfold input_to_point
    rw [h]
  · intro inp e h
    unfold input_to_point
    rw [h]

/-- Claim C2 witness: on the WKT input CRS=EPSG:4326;POLYGON((0 0,4 0,4 4,0
4,0 0)) the decoded geometry is referenced, so decode-point returns the
referenced centroid point tagged EPSG:4326. -/
theorem c2_witness :
    input_to_point (ComplexInputM.mk
        (("CRS=EPSG:4326;POLYGON((0 0,4 0,4 4,0 4,0 0))").data) mimeWKT)
      = Except.ok (PointValue.refPoint (1, 1) (CRS.mk (("EPSG:4326").data) true)) := by
  have h := c2_point_projection.1
      (ComplexInputM.mk (("CRS=EPSG:4326;POLYGON((0 0,4 0,4 4,0 4,0 0))").data) mimeWKT)
      (Geometry.polygon [(0, 0), (4, 0), (4, 4), (0, 4), (0, 0)])
      (CRS.mk (("EPSG:4326").data) true) (by decide)
  rw [h]
  decide

/-- Claim C3: decode-extent reads the first four payload values in the input
order xmin, xmax, ymin, ymax, builds the rectangle with corners reordered to
xmin, ymin, xmax, ymax — spanning the first two values in x and the last two
in y — and pairs it unconditionally with the CRS built from the declared CRS
string, with no validity check, for every CRS string whatsoever. -/
theorem c3_extent_reorder (x0 x1 x2 x3 : Int) (rest : List Int) (crsStr fmt : List Char) :
    input_to_extent (BBoxInputM.mk (x0 :: x1 :: x2 :: x3 :: rest) crsStr fmt)
      = Except.ok (QgsReferencedRectangle.mk (QgsRectangle.mk x0 x2 x1 x3)
          (crsFromString crsStr)) := rfl

/-- Claim C4: a CRS is attached to a decoded geometry or point only when it
passed the validity check; moreover a matched WKT input whose captured
specifier is empty or invalid, and a parsed GeoJSON payload whose embedded
spatial reference is absent or invalid, decode to a CRS-less value with no
error raised on account of the CRS. -/
theorem c4_crs_validated_invariant :
    (∀ inp g c, input_to_geometry inp = Except.ok (GeomValue.referenced g c) →
       c.valid = true)
    ∧ (∀ inp p c, input_to_point inp = Except.ok (PointValue.refPoint p c) →
       c.valid = true)
    ∧ (∀ s spec body, wktExprMatch s = some (spec, body) →
       (crsFromString spec).valid = false →
       wkt_to_goeometry s = Except.ok (GeomValue.plain (fromWkt body)))
    ∧ (∀ inp og, inp.mime_type = mimeGEOJSON →
       CreateGeometryFromJson inp.data = some og →
       (og.srs = none ∨ ∃ t, og.srs = some t ∧ (crsFromWkt t).valid = false) →
       input_to_geometry inp = Except.ok (GeomValue.plain (fromWkt (gexport og.geom)))) := by
  refine ⟨input_to_geometry_referenced_valid, ?_, ?_, ?_⟩
  · intro inp p c h
    unfold input_to_point at h
    split at h
    · rename_i g c' heq
      simp only [Except.ok.injEq, PointValue.refPoint.injEq] at h
      rw [← h.2]
      exact input_to_geometry_referenced_valid inp g c' heq
    · exact absurd h (by simp)
    · exact absurd h (by simp)
  · intro s spec body hm hv
    rw [wkt_to_goeometry_matched s spec body hm]
    by_cases hn : isNullG (fromWkt body) = true
    · rw [if_pos hn]
    · rw [if_neg hn, if_neg (by rw [hv]; exact Bool.false_ne_true)]
  · intro inp og hmime hc hsrs
    rw [input_to_geometry_geojson_ok inp og hmime hc]
    obtain ⟨geom, srs⟩ := og
    rcases hsrs with hnone | ⟨t, hsome, hinv⟩
    · simp only at hnone
      subst hnone
      rfl
    · simp only at hsome
      subst hsome
      show Except.ok (reattachSrs (OgrGeom.mk geom (some t)))
          = Except.ok (GeomValue.plain (fromWkt (gexport geom)))
      have hred : reattachSrs (OgrGeom.mk geom (some t))
          = (if (crsFromWkt t).valid then
              GeomValue.referenced (fromWkt (gexport geom)) (crsFromWkt t)
            else GeomValue.plain (fromWkt (gexport geom))) := rfl
      rw [hred, if_neg (by rw [hinv]; exact Bool.false_ne_true)]

/-- Claim C4 witness: the WKT input CRS=NOT_A_CRS;POINT(1 2) matches with the
invalid specifier NOT_A_CRS and decodes to the CRS-less point geometry with
no error. -/
theorem c4_witness :
    wkt_to_goeometry (("CRS=NOT_A_CRS;POINT(1 2)").data)
      = Except.ok (GeomValue.plain (Geometry.point 1 2)) := by
  have h := c4_crs_validated_invariant.2.2.1 (("CRS=NOT_A_CRS;POINT(1 2)").data)
      (("NOT_A_CRS").data) (("POINT(1 2)").data) (by decide) (by decide)
  rw [h]
  decide

/-- Claim C5 counterexample: on the input holding an interior newline the
fixed pattern fails to match, and the malformed-input branch of the WKT
converter — claimed unreachable — is reached. -/
theorem c5_counterexample :
    wktExprMatch (("a\nb").data) = none
    ∧ wkt_to_goeometry (("a\nb").data)
      = Except.error (PyErr.invalidParameterValue msgInvalidWkt) := by
  exact ⟨by decide, by decide⟩

/-- Claim C5 (amended): the fixed pattern matches exactly those strings in
which, after the greedy whitespace prefix, every newline is a single trailing
one; it does not match every string, and the malformed-input branch is
reachable precisely for the remaining strings. -/
theorem c5_match_characterization (s : List Char) :
    (wktExprMatch s).isSome = interiorNewlineFree s := by
  rw [show wktExprMatch s = wktExprMatchAux (s.dropWhile isPySpace) from rfl]
  rw [wktExprMatchAux_isSome]
  unfold matchBody interiorNewlineFree
  by_cases h1 : (s.dropWhile isPySpace).getLast? = some '\n'
  · rw [if_pos h1, if_pos h1]
    by_cases h2 : '\n' ∈ (s.dropWhile isPySpace).dropLast
    · rw [if_pos h2]
      simp [h2]
    · rw [if_neg h2]
      simp [h2]
  · rw [if_neg h1, if_neg h1]
    by_cases h2 : '\n' ∈ s.dropWhile isPySpace
    · rw [if_pos h2]
      simp [h2]
    · rw [if_neg h2]
      simp [h2]

/-- Claim C6 counterexample: on CRS=A;B;POINT(1 2) the captured CRS specifier
is A;B — it contains a semicolon, and the body is POINT(1 2) — refuting the
claim that the specifier is matched non-greedily as a semicolon-free run with
specifier A and body B;POINT(1 2). -/
theorem c6_counterexample :
    wktExprMatch (("CRS=A;B;POINT(1 2)").data)
      = some ((("A;B").data), (("POINT(1 2)").data))
    ∧ ';' ∈ ("A;B").data
    ∧ wktExprMatch (("CRS=A;B;POINT(1 2)").data)
      ≠ some ((("A").data), (("B;POINT(1 2)").data)) := by
  refine ⟨by decide, by decide, by decide⟩

/-- Claim C6 (amended): the CRS capture is greedy — for an input of the form
CRS=A;B;body whose body is semicolon-free (and with no newlines involved) the
captured specifier is A;B, extending to the last semicolon and so possibly
containing semicolons itself, and the captured body is what follows that last
semicolon. -/
theorem c6_greedy_capture (A B body : List Char)
    (hA : '\n' ∉ A) (hB : '\n' ∉ B) (hb1 : ';' ∉ body) (hb2 : '\n' ∉ body) :
    wktExprMatch (crsTag ++ (A ++ ';' :: B ++ ';' :: body))
      = some (A ++ ';' :: B, body) := by
  unfold wktExprMatch
  have h1 : (crsTag ++ (A ++ ';' :: B ++ ';' :: body)).dropWhile isPySpace
      = crsTag ++ (A ++ ';' :: B ++ ';' :: body) :=
    List.dropWhile_cons_of_neg (by decide)
  rw [h1]
  unfold wktExprMatchAux
  rw [if_pos (isPrefixOf_append crsTag (A ++ ';' :: B ++ ';' :: body))]
  have hd : (crsTag ++ (A ++ ';' :: B ++ ';' :: body)).drop 4
      = A ++ ';' :: B ++ ';' :: body :=
    List.drop_left crsTag (A ++ ';' :: B ++ ';' :: body)
  rw [hd]
  unfold crsArm
  have hsplit : lastSemiSplit (A ++ ';' :: B ++ ';' :: body) = some (A ++ ';' :: B, body) := by
    rw [show A ++ ';' :: B ++ ';' :: body = (A ++ ';' :: B) ++ ';' :: body by simp]
    refine lastSemiSplit_append (A ++ ';' :: B) body ?_ hb1
    intro hm
    rcases List.mem_append.mp hm with h' | h'
    · exact hA h'
    · rcases List.mem_cons.mp h' with h'' | h''
      · exact absurd h'' (by decide)
      · exact hB h''
  rw [hsplit]
  show (match matchBody body with
      | some b => some (A ++ ';' :: B, b)
      | none => (matchBody (crsTag ++ (A ++ ';' :: B ++ ';' :: body))).map
          (fun b => (([] : List Char), b)))
    = some (A ++ ';' :: B, body)
  rw [matchBody_of_not_mem body hb2]

/-- Claim C6 witness: the greedy capture evaluated on the concrete input
CRS=EPSG:4326;x;POINT(3 4). -/
theorem c6_witness :
    wktExprMatch (crsTag ++ ((("EPSG:4326").data) ++ ';' :: (("x").data) ++ ';' :: (("POINT(3 4)").data)))
      = some ((("EPSG:4326").data) ++ ';' :: (("x").data), (("POINT(3 4)").data)) :=
  c6_greedy_capture (("EPSG:4326").data) (("x").data) (("POINT(3 4)").data)
    (by decide) (by decide) (by decide) (by decide)

/-- Claim C7: an input whose declared MIME type is none of WKT, GeoJSON and
GML makes decode-geometry fail with the NoApplicableCode error whose message
names the unsupported format, an error constructor distinct from the
Malformed-Input one. -/
theorem c7_unsupported_format (inp : ComplexInputM)
    (h1 : inp.mime_type ≠ mimeWKT) (h2 : inp.mime_type ≠ mimeGEOJSON)
    (h3 : inp.mime_type ≠ mimeGML) :
    input_to_geometry inp
      = Except.error (PyErr.noApplicableCode (msgUnsupported ++ inp.mime_type))
    ∧ ∀ m, PyErr.noApplicableCode (msgUnsupported ++ inp.mime_type)
        ≠ PyErr.invalidParameterValue m := by
  refine ⟨?_, ?_⟩
  · unfold input_to_geometry
    rw [if_neg h1, if_neg h2, if_neg h3]
  · intro m hc
    exact PyErr.noConfusion hc

/-- Claim C7 witness: decode-geometry on a payload declared as
application/unknown fails with the unsupported-format error naming it. -/
theorem c7_witness :
    input_to_geometry (ComplexInputM.mk (("POINT(1 2)").data) (("application/unknown").data))
      = Except.error (PyErr.noApplicableCode
          (msgUnsupported ++ ("application/unknown").data)) :=
  (c7_unsupported_format
    (ComplexInputM.mk (("POINT(1 2)").data) (("application/unknown").data))
    (by decide) (by decide) (by decide)).1

/-- Claim C8: a WKT input matched with an empty CRS capture — covering both a
missing prefix and an empty specifier — and whose body constructs a non-null
geometry decodes to exactly that geometry with no CRS attached; the second
conjunct states that re-exporting the returned geometry to canonical WKT and
re-reading it denotes the same geometry. -/
theorem c8_plain_wkt (s body : List Char)
    (hm : wktExprMatch s = some ([], body))
    (hg : fromWkt body ≠ Geometry.null) :
    wkt_to_goeometry s = Except.ok (GeomValue.plain (fromWkt body))
    ∧ fromWkt (gexport (fromWkt body)) = fromWkt body := by
  refine ⟨?_, fromWkt_gexport_fromWkt body⟩
  rw [wkt_to_goeometry_matched s [] body hm]
  rw [if_neg (by rw [isNullG_eq_false (fromWkt body) hg]; exact Bool.false_ne_true)]
  rw [if_neg (by decide)]

/-- Claim C8 witness: the prefix-less WKT input POINT(1 2) decodes to the
CRS-less point geometry. -/
theorem c8_witness :
    wkt_to_goeometry (("POINT(1 2)").data)
      = Except.ok (GeomValue.plain (Geometry.point 1 2)) := by
  have h := (c8_plain_wkt (("POINT(1 2)").data) (("POINT(1 2)").data)
      (by decide) (by decide)).1
  rw [h]
  decide

/-- Claim C9: every geometry successfully decoded from a GeoJSON-typed input,
re-exported to WKT and decoded again through the WKT path, yields the same
geometry. -/
theorem c9_geojson_roundtrip (inp : ComplexInputM) (v : GeomValue)
    (hmime : inp.mime_type = mimeGEOJSON)
    (h : input_to_geometry inp = Except.ok v) :
    wkt_to_goeometry (gexport (underlyingGeom v))
      = Except.ok (GeomValue.plain (underlyingGeom v)) := by
  unfold input_to_geometry at h
  rw [if_neg (by rw [hmime]; decide), if_pos hmime] at h
  split at h
  · exact absurd h (by simp)
  · rename_i og hcg
    simp only [Except.ok.injEq] at h
    rw [← h, underlying_reattach og]
    exact wkt_path_normalizes (gexport og.geom)

/-- Claim C9 witness: the GeoJSON-typed payload decoding to the point (3,4)
tagged EPSG:3857 re-exports and re-decodes to the same point. -/
theorem c9_witness :
    wkt_to_goeometry (gexport (Geometry.point 3 4))
      = Except.ok (GeomValue.plain (Geometry.point 3 4)) :=
  c9_geojson_roundtrip
    (ComplexInputM.mk (("POINT(3 4)@EPSG:3857").data) mimeGEOJSON)
    (GeomValue.referenced (Geometry.point 3 4) (CRS.mk (("EPSG:3857").data) true))
    rfl (by decide)

/-- Claim C10: decode-extent never consults the declared format and never
raises the Malformed-Input or Unsupported-Format errors: on any payload whose
first four values are numbers it returns the referenced rectangle and ignores
any further payload values, its result is unchanged under any change of the
declared format, and its only possible error is the out-of-bounds index
error of a short payload. -/
theorem c10_extent_total (d : List Int) (crsStr f f' : List Char)
    (x0 x1 x2 x3 : Int) (rest : List Int) :
    input_to_extent (BBoxInputM.mk (x0 :: x1 :: x2 :: x3 :: rest) crsStr f)
      = Except.ok (QgsReferencedRectangle.mk (QgsRectangle.mk x0 x2 x1 x3)
          (crsFromString crsStr))
    ∧ input_to_extent (BBoxInputM.mk (x0 :: x1 :: x2 :: x3 :: rest) crsStr f)
      = input_to_extent (BBoxInputM.mk [x0, x1, x2, x3] crsStr f)
    ∧ input_to_extent (BBoxInputM.mk d crsStr f)
      = input_to_extent (BBoxInputM.mk d crsStr f')
    ∧ (∀ e, input_to_extent (BBoxInputM.mk d crsStr f) = Except.error e →
        e = PyErr.indexError) := by
  refine ⟨rfl, rfl, rfl, ?_⟩
  intro e he
  unfold input_to_extent at he
  split at he
  · exact absurd he (by simp)
  · simp only [Except.error.injEq] at he
    exact he.symm

/-- Claim C10 witness: the five-value payload (1, 3, 5, 9, 7) under an
arbitrary declared format returns the rectangle spanning x from 1 to 3 and y
from 5 to 9 with the fifth value ignored. -/
theorem c10_witness :
    input_to_extent (BBoxInputM.mk [1, 3, 5, 9, 7] (("EPSG:4326").data)
        (("application/unknown").data))
      = Except.ok (QgsReferencedRectangle.mk (QgsRectangle.mk 1 5 3 9)
          (crsFromString (("EPSG:4326").data))) :=
  (c10_extent_total [1, 3, 5, 9, 7] (("EPSG:4326").data) (("application/unknown").data)
    (("x").data) 1 3 5 9 [7]).1
